import Mathlib

/-!
Verification development for the X Space transcript/summary processing
pipeline.  The definitions below are a shallow embedding of the
TypeScript services of the repository:

* `TranscriptionService` (segment post-processing, speaker labelling,
  confidence heuristic, transcription orchestration),
* `SummaryService` (summary-response parsing with JSON-first / text
  fallback, sentiment validation, summary orchestration),
* `AudioService` (WAV encoding of decoded PCM buffers),
* `XSpaceService` (space-id extraction, metadata extraction, pipeline
  orchestration).

JavaScript numbers appearing in the heuristics are modelled as exact
rationals; JavaScript strings as Lean `String`; nullable / optional
values as `Option`; thrown exceptions as `Except` results.  External
network calls are modelled by explicit environment records holding the
outcome of each call.
-/

namespace XSpaceApp

/-- JavaScript truthiness of an optional string: `undefined` and the
empty string are falsy. -/
def jsTruthyStr : Option String → Bool
  | none => false
  | some s => !(s = "")

/-- Substring containment on character lists (model of JS
`String.prototype.includes`). -/
def listContainsSub (needle hay : List Char) : Bool :=
  hay.tails.any (fun t => needle.isPrefixOf t)

/-- Model of JS `String.prototype.includes`. -/
def strIncludes (hay needle : String) : Bool :=
  listContainsSub needle.toList hay.toList

/-- Model of JS `String.prototype.split` with a one-character
separator. -/
def splitOnChar (c : Char) : List Char → List (List Char)
  | [] => [[]]
  | x :: rest =>
      let r := splitOnChar c rest
      if x = c then [] :: r
      else
        match r with
        | h :: t => (x :: h) :: t
        | [] => [[x]]

/-- Model of JS `String.prototype.trim`. -/
def jsTrim (s : String) : String :=
  String.mk (((s.toList.dropWhile Char.isWhitespace).reverse.dropWhile Char.isWhitespace).reverse)

/-- Model of JS `String.prototype.toLowerCase` (character-wise). -/
def jsToLower (s : String) : String :=
  String.mk (s.toList.map Char.toLower)

/-- Model of JS `String.prototype.startsWith`. -/
def jsStartsWith (s pre : String) : Bool :=
  pre.toList.isPrefixOf s.toList

/-- Model of JS `String.prototype.includes` for a single character. -/
def strIncludesChar (hay : String) (c : Char) : Bool :=
  hay.toList.contains c

/-! ## TranscriptionService (src/unnamed/part_001, lines 1–148) -/

/-- A raw provider segment (`any` in the source): every field may be
absent. -/
structure RawSegment where
  start : Option ℚ
  stop : Option ℚ
  text : Option String
  deriving Repr, DecidableEq

/-- The `TranscriptionSegment` of the source.  The `end` field of the source
is called `stop` here (`end` is a Lean keyword); `speaker` is optional
as in the source interface. -/
structure TranscriptionSegment where
  start : ℚ
  stop : ℚ
  text : String
  speaker : Option String
  deriving Repr, DecidableEq

/-- The `TranscriptionResult` of the source. -/
structure TranscriptionResult where
  text : String
  segments : List TranscriptionSegment
  speakers : List String
  language : String
  confidence : ℚ
  deriving Repr, DecidableEq

/-- The `TranscriptionService.processSegments`: each raw segment is defaulted
field-wise (`segment.start || 0` etc.) and assigned the speaker label
`"Speaker " ++ toString (index / 5 + 1)`. -/
def processSegments (segments : List RawSegment) : List TranscriptionSegment :=
  (List.range segments.length).zip segments |>.map fun p =>
    { start := p.2.start.getD 0
      stop := p.2.stop.getD 0
      text := p.2.text.getD ""
      speaker := some ("Speaker " ++ toString (p.1 / 5 + 1)) }

/-- The `forEach` body of `identifySpeakers`: `speakers.add(s)` on a JS
`Set` (kept in insertion order, duplicates ignored) guarded by the
truthiness of `segment.speaker` (present and non-empty). -/
def addSpeaker (acc : List String) (seg : TranscriptionSegment) : List String :=
  match seg.speaker with
  | some s => if s ≠ "" then (if s ∈ acc then acc else acc ++ [s]) else acc
  | none => acc

/-- The `TranscriptionService.identifySpeakers`: a JS `Set` built by a
`forEach` over the segments; `Array.from` preserves insertion order. -/
def identifySpeakers (segments : List TranscriptionSegment) : List String :=
  segments.foldl addSpeaker []

/-- The per-segment body of `calculateAverageConfidence`: base 0.8,
`+0.1` when `textLength / max(duration, 1)` is strictly between 2 and 8,
`+0.05` when the text *contains* `'.'` or `'?'`, capped at 0.95. -/
def segmentScore (seg : TranscriptionSegment) : ℚ :=
  let textLength : ℚ := seg.text.length
  let duration : ℚ := seg.stop - seg.start
  let wordsPerSecond : ℚ := textLength / max duration 1
  let confidence : ℚ := 0.8
  let confidence := if wordsPerSecond > 2 ∧ wordsPerSecond < 8 then confidence + 0.1 else confidence
  let confidence :=
    if strIncludesChar seg.text '.' || strIncludesChar seg.text '?' then confidence + 0.05
    else confidence
  min confidence 0.95

/-- The `TranscriptionService.calculateAverageConfidence`: 0 for an empty
sequence, otherwise the accumulated per-segment scores divided by the
number of segments. -/
def calculateAverageConfidence (segments : List TranscriptionSegment) : ℚ :=
  if segments.length = 0 then 0
  else
    let totalScore := segments.foldl (fun acc seg => acc + segmentScore seg) 0
    totalScore / segments.length

/-! ## SummaryService (src/unnamed/part_001, lines 149–344)

JavaScript runtime values produced by `JSON.parse` are modelled by the
inductive `JsonVal`; numbers are exact rationals.  Fields of the parsed
object are accessed through `jsGetField` (duplicate keys: last wins, as
in `JSON.parse`). -/

inductive JsonVal where
  | null : JsonVal
  | bool (b : Bool) : JsonVal
  | num (q : ℚ) : JsonVal
  | str (s : String) : JsonVal
  | arr (elems : List JsonVal) : JsonVal
  | obj (fields : List (String × JsonVal)) : JsonVal
  deriving Repr

/-- JavaScript truthiness of a JSON runtime value (`NaN` is not
representable in the rational model). -/
def jsTruthyJson : JsonVal → Bool
  | .null => false
  | .bool b => b
  | .num q => !(q = 0)
  | .str s => !(s = "")
  | .arr _ => true
  | .obj _ => true

/-- JS property access `parsed.k` on a runtime value: `undefined` (here
`none`) on a non-object, last binding wins on duplicate keys. -/
def jsGetField (v : JsonVal) (k : String) : Option JsonVal :=
  match v with
  | .obj fields => fields.foldl (fun acc p => if p.1 = k then some p.2 else acc) none
  | _ => none

/-- Model of `v || d` for a string-typed field (`x.language || 'en'`
etc.): absent or falsy gives the default. -/
def jsOrStr (v : Option String) (d : String) : String :=
  match v with
  | some s => if s = "" then d else s
  | none => d

/-! ### Model of the platform `JSON.parse`

A fuel-indexed recursive-descent parser for JSON text: whitespace,
`null` / `true` / `false`, double-quoted strings with the standard
escapes, numbers (as exact rationals), arrays and objects.  The fuel is
the length of the input plus one, which dominates the nesting depth. -/

def isJsonWs (c : Char) : Bool :=
  c = ' ' || c = '\t' || c = '\n' || c = '\r'

def skipWs (cs : List Char) : List Char :=
  cs.dropWhile isJsonWs

def hexDigitVal (c : Char) : Option Nat :=
  if c.isDigit then some (c.toNat - '0'.toNat)
  else if 'a' ≤ c ∧ c ≤ 'f' then some (c.toNat - 'a'.toNat + 10)
  else if 'A' ≤ c ∧ c ≤ 'F' then some (c.toNat - 'A'.toNat + 10)
  else none

def escapeChar (c : Char) : Option Char :=
  if c = '"' then some '"'
  else if c = '\\' then some '\\'
  else if c = '/' then some '/'
  else if c = 'b' then some (Char.ofNat 8)
  else if c = 'f' then some (Char.ofNat 12)
  else if c = 'n' then some '\n'
  else if c = 'r' then some '\r'
  else if c = 't' then some '\t'
  else none

/-- Characters of a JSON string body after the opening quote, up to and
consuming the closing quote. -/
def parseStringChars : Nat → List Char → Option (List Char × List Char)
  | 0, _ => none
  | _ + 1, [] => none
  | fuel + 1, c :: rest =>
    if c = '"' then some ([], rest)
    else if c = '\\' then
      match rest with
      | 'u' :: h1 :: h2 :: h3 :: h4 :: rest2 => do
          let d1 ← hexDigitVal h1
          let d2 ← hexDigitVal h2
          let d3 ← hexDigitVal h3
          let d4 ← hexDigitVal h4
          let (s, r) ← parseStringChars fuel rest2
          some (Char.ofNat (((d1 * 16 + d2) * 16 + d3) * 16 + d4) :: s, r)
      | e :: rest2 => do
          let ch ← escapeChar e
          let (s, r) ← parseStringChars fuel rest2
          some (ch :: s, r)
      | [] => none
    else do
      let (s, r) ← parseStringChars fuel rest
      some (c :: s, r)

/-- A non-empty run of decimal digits and its value. -/
def parseDigits (cs : List Char) : Option (Nat × Nat × List Char) :=
  let digits := cs.takeWhile Char.isDigit
  if digits.isEmpty then none
  else some (digits.foldl (fun acc c => acc * 10 + (c.toNat - '0'.toNat)) 0,
             digits.length, cs.drop digits.length)

/-- A JSON number as an exact rational. -/
def parseNumber (cs : List Char) : Option (ℚ × List Char) := do
  let (neg, cs1) := match cs with
    | '-' :: r => (true, r)
    | _ => (false, cs)
  let (intPart, _, cs2) ← parseDigits cs1
  let frac? : Option (Nat × Nat × List Char) :=
    match cs2 with
    | '.' :: r =>
      match parseDigits r with
      | some (v, len, rest) => some (v, len, rest)
      | none => none
    | _ => some (0, 0, cs2)
  match frac? with
  | none => none
  | some (fracNum, fracLen, cs3) =>
    let (expVal, cs4) :=
      match cs3 with
      | 'e' :: r | 'E' :: r =>
        match r with
        | '+' :: r2 =>
          (match parseDigits r2 with
           | some (v, _, rest) => (some (Int.ofNat v), rest)
           | none => (none, cs3))
        | '-' :: r2 =>
          (match parseDigits r2 with
           | some (v, _, rest) => (some (-(Int.ofNat v)), rest)
           | none => (none, cs3))
        | _ =>
          (match parseDigits r with
           | some (v, _, rest) => (some (Int.ofNat v), rest)
           | none => (none, cs3))
      | _ => (some 0, cs3)
    match expVal with
    | none => none
    | some e =>
      let base : ℚ := (intPart : ℚ) + (fracNum : ℚ) / ((10 : ℚ) ^ fracLen)
      let scaled : ℚ := base * (10 : ℚ) ^ e
      some (if neg then -scaled else scaled, cs4)

mutual

/-- A JSON value, leading whitespace allowed. -/
def parseJsonValue : Nat → List Char → Option (JsonVal × List Char)
  | 0, _ => none
  | fuel + 1, cs =>
    match skipWs cs with
    | 'n' :: 'u' :: 'l' :: 'l' :: r => some (.null, r)
    | 't' :: 'r' :: 'u' :: 'e' :: r => some (.bool true, r)
    | 'f' :: 'a' :: 'l' :: 's' :: 'e' :: r => some (.bool false, r)
    | '"' :: r => do
        let (s, rest) ← parseStringChars (fuel + 1) r
        some (.str (String.mk s), rest)
    | '[' :: r =>
        (match skipWs r with
         | ']' :: r2 => some (.arr [], r2)
         | _ => do
             let (xs, rest) ← parseJsonElems fuel r
             some (.arr xs, rest))
    | '{' :: r =>
        (match skipWs r with
         | '}' :: r2 => some (.obj [], r2)
         | _ => do
             let (fs, rest) ← parseJsonMembers fuel r
             some (.obj fs, rest))
    | other => do
        let (q, rest) ← parseNumber other
        some (.num q, rest)

/-- Comma-separated array elements up to the closing bracket. -/
def parseJsonElems : Nat → List Char → Option (List JsonVal × List Char)
  | 0, _ => none
  | fuel + 1, cs => do
    let (v, rest) ← parseJsonValue fuel cs
    match skipWs rest with
    | ',' :: r => do
        let (xs, rest2) ← parseJsonElems fuel r
        some (v :: xs, rest2)
    | ']' :: r => some ([v], r)
    | _ => none

/-- Comma-separated object members up to the closing brace. -/
def parseJsonMembers : Nat → List Char → Option (List (String × JsonVal) × List Char)
  | 0, _ => none
  | fuel + 1, cs =>
    match skipWs cs with
    | '"' :: r => do
        let (k, rest) ← parseStringChars (fuel + 1) r
        match skipWs rest with
        | ':' :: r2 => do
            let (v, rest2) ← parseJsonValue fuel r2
            match skipWs rest2 with
            | ',' :: r3 => do
                let (fs, rest3) ← parseJsonMembers fuel r3
                some ((String.mk k, v) :: fs, rest3)
            | '}' :: r3 => some ([(String.mk k, v)], r3)
            | _ => none
        | _ => none
    | _ => none

end

/-- Model of the platform `JSON.parse`: the whole input must be one JSON
value surrounded by optional whitespace. -/
def jsonParse (s : String) : Option JsonVal :=
  match parseJsonValue (s.length + 1) s.toList with
  | some (v, rest) => if (skipWs rest).isEmpty then some v else none
  | none => none

/-- Model of `content.match(/\x7b[\s\S]*\x7d/)`: the greedy match runs
from the first opening brace to the last closing brace, provided the
latter comes after the former; otherwise there is no match. -/
def braceMatch (content : String) : Option String :=
  let cs := content.toList
  match cs.findIdx? (fun c => c = '{'), cs.reverse.findIdx? (fun c => c = '}') with
  | some i, some k =>
      let j := cs.length - 1 - k
      if i < j then some (String.mk ((cs.drop i).take (j - i + 1))) else none
  | _, _ => none

/-- The `SummaryResult` of the source, at the JavaScript runtime level: the
array-valued fields and `summary` hold whatever runtime values the
provider's JSON contained (`.str` values in the well-typed case);
`sentiment` is always a string because `validateSentiment` returns one.
-/
structure SummaryResult where
  summary : JsonVal
  keyPoints : List JsonVal
  topics : List JsonVal
  sentiment : String
  actionItems : List JsonVal
  participants : List JsonVal
  deriving Repr

/-- The fixed sentiment enum of the source. -/
def validSentiments : List String := ["positive", "negative", "neutral", "mixed"]

/-- The `SummaryService.validateSentiment`: `validSentiments.includes(s)`
(strict equality, so only a matching string passes), otherwise
`'neutral'`. -/
def validateSentiment (sentiment : Option JsonVal) : String :=
  match sentiment with
  | some (.str s) => if validSentiments.contains s then s else "neutral"
  | _ => "neutral"

/-- The field mapping applied to a successfully parsed JSON response
(body of the `if (jsonMatch)` branch of `parseSummaryResponse`). -/
def summaryFromJson (parsed : JsonVal) (speakers : List String) : SummaryResult :=
  { summary :=
      match jsGetField parsed "summary" with
      | some v => if jsTruthyJson v then v else .str "Summary could not be generated."
      | none => .str "Summary could not be generated."
    keyPoints :=
      match jsGetField parsed "keyPoints" with
      | some (.arr xs) => xs
      | _ => []
    topics :=
      match jsGetField parsed "topics" with
      | some (.arr xs) => xs
      | _ => []
    sentiment := validateSentiment (jsGetField parsed "sentiment")
    actionItems :=
      match jsGetField parsed "actionItems" with
      | some (.arr xs) => xs
      | _ => []
    participants :=
      match jsGetField parsed "participants" with
      | some (.arr xs) => xs
      | _ => speakers.map .str }

/-- The accumulator of the line scanner of `parseTextResponse`. -/
structure TextParseState where
  summary : String
  keyPoints : List String
  topics : List String
  sentiment : String
  actionItems : List String
  currentSection : String
  deriving Repr

/-- Model of `trimmed.replace(/^[-•]\s*\x2f, '')` (with the regex ending
delimiter): one leading `-` or `•` and the following whitespace run are
removed. -/
def stripBullet (s : String) : String :=
  match s.toList with
  | c :: rest =>
      if c = '-' || c = '•' then String.mk (rest.dropWhile Char.isWhitespace) else s
  | [] => s

/-- Model of `s.match(/(positive|negative|neutral|mixed)/)`: the word
matched at the leftmost matching position. -/
def findSentimentWord : List Char → Option String
  | [] => none
  | c :: rest =>
    match validSentiments.find? (fun w => w.toList.isPrefixOf (c :: rest)) with
    | some w => some w
    | none => findSentimentWord rest

/-- The loop body of `parseTextResponse`: section-marker lines move the
cursor (and are not accumulated, `continue`); other lines accumulate
into the active section. -/
def processLine (st : TextParseState) (line : String) : TextParseState :=
  let trimmed := jsTrim line
  let lower := jsToLower trimmed
  if strIncludes lower "summary" then { st with currentSection := "summary" }
  else if strIncludes lower "key points" || strIncludes lower "takeaways" then
    { st with currentSection := "keypoints" }
  else if strIncludes lower "topics" then { st with currentSection := "topics" }
  else if strIncludes lower "sentiment" then { st with currentSection := "sentiment" }
  else if strIncludes lower "action" then { st with currentSection := "actions" }
  else if st.currentSection = "summary" ∧ ¬jsStartsWith trimmed "-" ∧ ¬jsStartsWith trimmed "•" then
    { st with summary := st.summary ++ (if st.summary = "" then "" else " ") ++ trimmed }
  else if st.currentSection = "keypoints" ∧ (jsStartsWith trimmed "-" ∨ jsStartsWith trimmed "•") then
    { st with keyPoints := st.keyPoints ++ [stripBullet trimmed] }
  else if st.currentSection = "topics" ∧ (jsStartsWith trimmed "-" ∨ jsStartsWith trimmed "•") then
    { st with topics := st.topics ++ [stripBullet trimmed] }
  else if st.currentSection = "actions" ∧ (jsStartsWith trimmed "-" ∨ jsStartsWith trimmed "•") then
    { st with actionItems := st.actionItems ++ [stripBullet trimmed] }
  else if st.currentSection = "sentiment" then
    match findSentimentWord (jsToLower trimmed).toList with
    | some w => { st with sentiment := w }
    | none => st
  else st

/-- The `SummaryService.parseTextResponse`: heuristic section scan of a
non-JSON response, with placeholder fallbacks for an empty summary and
empty key points / topics. -/
def parseTextResponse (content : String) (speakers : List String) : SummaryResult :=
  let lines := ((splitOnChar '\n' content.toList).map String.mk).filter
    (fun line => jsTrim line ≠ "")
  let st := lines.foldl processLine
    { summary := "", keyPoints := [], topics := [], sentiment := "neutral",
      actionItems := [], currentSection := "" }
  { summary := .str (if st.summary = "" then "Summary could not be generated." else st.summary)
    keyPoints :=
      (if st.keyPoints.length > 0 then st.keyPoints else ["Key points could not be extracted."]).map .str
    topics :=
      (if st.topics.length > 0 then st.topics else ["Topics could not be identified."]).map .str
    sentiment := st.sentiment
    actionItems := st.actionItems.map .str
    participants := speakers.map .str }

/-- The `SummaryService.parseSummaryResponse`: JSON-first (brace-delimited
substring fed to `JSON.parse`), text-section fallback when there is no
brace block or parsing throws. -/
def parseSummaryResponse (content : String) (speakers : List String) : SummaryResult :=
  match braceMatch content with
  | some sub =>
    match jsonParse sub with
    | some parsed => summaryFromJson parsed speakers
    | none => parseTextResponse content speakers
  | none => parseTextResponse content speakers

/-! ## AudioService (src/unnamed/part_000)

The `ArrayBuffer` written through a `DataView` is modelled as a list of
bytes (`Nat` values below 256); every `DataView` setter writes
little-endian, as in the source (`true` flag).  Float samples are
modelled as exact rationals; `DataView.setInt16` applied to a float
truncates it toward zero and wraps modulo 2^16. -/

/-- The `new ArrayBuffer(n)`: `n` zero bytes. -/
def newArrayBuffer (n : Nat) : List Nat :=
  List.replicate n 0

/-- The `view.setUint8(off, v)`. -/
def setUint8 (buf : List Nat) (off v : Nat) : List Nat :=
  buf.set off (v % 256)

/-- The `view.setUint16(off, v, true)`: little-endian, wraps modulo 2^16. -/
def setUint16 (buf : List Nat) (off v : Nat) : List Nat :=
  (buf.set off (v % 256)).set (off + 1) (v / 256 % 256)

/-- The `view.setUint32(off, v, true)`: little-endian, wraps modulo 2^32. -/
def setUint32 (buf : List Nat) (off v : Nat) : List Nat :=
  ((((buf.set off (v % 256)).set (off + 1) (v / 256 % 256)).set
    (off + 2) (v / 2 ^ 16 % 256)).set (off + 3) (v / 2 ^ 24 % 256))

/-- JavaScript number-to-integer conversion (truncation toward zero). -/
def jsTruncInt (q : ℚ) : Int :=
  if q < 0 then ⌈q⌉ else ⌊q⌋

/-- The `view.setInt16(off, v, true)` for an integer value: wraps modulo
2^16 and writes the two bytes little-endian. -/
def setInt16 (buf : List Nat) (off : Nat) (v : Int) : List Nat :=
  let u := (v % 65536).toNat
  (buf.set off (u % 256)).set (off + 1) (u / 256 % 256)

/-- The `writeString` helper of `audioBufferToWav`: one `setUint8` per
character (`charCodeAt`). -/
def writeString (buf : List Nat) (off : Nat) (s : String) : List Nat :=
  ((List.range s.length).zip s.toList).foldl
    (fun b p => setUint8 b (off + p.1) p.2.toNat) buf

/-- A decoded Web-Audio `AudioBuffer`: `channelData ch i` models
`buffer.getChannelData(ch)[i]`. -/
structure AudioBuffer where
  length : Nat
  numberOfChannels : Nat
  sampleRate : Nat
  channelData : Nat → Nat → ℚ

/-- The `Math.max(-1, Math.min(1, buffer.getChannelData(channel)[i]))`. -/
def clampedSample (buffer : AudioBuffer) (ch i : Nat) : ℚ :=
  max (-1) (min 1 (buffer.channelData ch i))

/-- The `sample < 0 ? sample * 0x8000 : sample * 0x7FFF`, truncated by
`setInt16`. -/
def sampleToInt (s : ℚ) : Int :=
  jsTruncInt (if s < 0 then s * 32768 else s * 32767)

/-- The (sample index, channel) pairs visited by the nested write loop,
in visit order: outer loop over sample indices, inner loop over
channels. -/
def sampleIndexPairs (len c : Nat) : List (Nat × Nat) :=
  (List.range len).flatMap (fun i => (List.range c).map (fun ch => (i, ch)))

/-- The nested sample-write loop of `audioBufferToWav`: each iteration
writes one 16-bit sample and advances the offset by 2. -/
def writeSamples (buffer : AudioBuffer) : List (Nat × Nat) → Nat → List Nat → List Nat
  | [], _, ab => ab
  | (i, ch) :: rest, off, ab =>
      writeSamples buffer rest (off + 2)
        (setInt16 ab off (sampleToInt (clampedSample buffer ch i)))

/-- The `AudioService.audioBufferToWav`: 44-byte RIFF/WAVE header followed
by the interleaved 16-bit samples. -/
def audioBufferToWav (buffer : AudioBuffer) : List Nat :=
  let length := buffer.length
  let numberOfChannels := buffer.numberOfChannels
  let sampleRate := buffer.sampleRate
  let ab := newArrayBuffer (44 + length * numberOfChannels * 2)
  let ab := writeString ab 0 "RIFF"
  let ab := setUint32 ab 4 (36 + length * numberOfChannels * 2)
  let ab := writeString ab 8 "WAVE"
  let ab := writeString ab 12 "fmt "
  let ab := setUint32 ab 16 16
  let ab := setUint16 ab 20 1
  let ab := setUint16 ab 22 numberOfChannels
  let ab := setUint32 ab 24 sampleRate
  let ab := setUint32 ab 28 (sampleRate * numberOfChannels * 2)
  let ab := setUint16 ab 32 (numberOfChannels * 2)
  let ab := setUint16 ab 34 16
  let ab := writeString ab 36 "data"
  let ab := setUint32 ab 40 (length * numberOfChannels * 2)
  writeSamples buffer (sampleIndexPairs length numberOfChannels) 44 ab

/-! ## Service errors and provider-call environments

Thrown JavaScript errors are modelled as `Except` results with an
explicit error taxonomy; the boolean returned alongside each provider
operation records whether a provider request was attempted.  The
outcome of each external network call is an explicit environment
field (`none` models a rejected / thrown request). -/

inductive AppError where
  | config (msg : String)
  | provider (msg : String)
  | unavailableSource (msg : String)
  | decode (msg : String)
  deriving Repr, DecidableEq

/-- The OpenAI Whisper verbose-json payload, field-wise optional
(`data.text || ''` etc. in the source). -/
structure WhisperData where
  text : Option String
  segments : Option (List RawSegment)
  language : Option String

/-- Outcome of the transcription HTTP request. -/
structure TranscribeApiResponse where
  ok : Bool
  data : WhisperData

/-- Environment of `transcribeAudio`: `none` models a request that
threw. -/
structure TranscribeEnv where
  response : Option TranscribeApiResponse

/-- The `TranscriptionService.transcribeAudio`: configuration check before
any request, then the provider call, then pure post-processing.  The
boolean is true iff a provider request was attempted. -/
def transcribeAudio (apiKey : Option String) (env : TranscribeEnv) :
    Except AppError TranscriptionResult × Bool :=
  if !jsTruthyStr apiKey then
    (.error (.config "OpenAI API key not configured. Please add VITE_OPENAI_API_KEY to your .env file."),
     false)
  else
    match env.response with
    | none => (.error (.provider "Failed to transcribe audio: request failed"), true)
    | some resp =>
      if !resp.ok then
        (.error (.provider "Failed to transcribe audio: Transcription failed"), true)
      else
        let processedSegments := processSegments (resp.data.segments.getD [])
        let speakers := identifySpeakers processedSegments
        (.ok { text := jsOrStr resp.data.text ""
               segments := processedSegments
               speakers := speakers
               language := jsOrStr resp.data.language "en"
               confidence := calculateAverageConfidence processedSegments }, true)

/-- Outcome of the chat-completion HTTP request: `content` models
`data.choices?.[0]?.message?.content`. -/
structure SummaryApiResponse where
  ok : Bool
  content : Option String

/-- Environment of `generateSummary`: `none` models a request that
threw. -/
structure SummaryEnv where
  response : Option SummaryApiResponse

/-- The `SummaryService.generateSummary`: configuration check before any
request, then the provider call (`!content` — absent or empty — throws),
then the total response parsing.  The boolean is true iff a provider
request was attempted. -/
def generateSummary (apiKey : Option String) (env : SummaryEnv)
    (_transcript : String) (speakers : List String) :
    Except AppError SummaryResult × Bool :=
  if !jsTruthyStr apiKey then
    (.error (.config "OpenAI API key not configured. Please add VITE_OPENAI_API_KEY to your .env file."),
     false)
  else
    match env.response with
    | none => (.error (.provider "Failed to generate summary: request failed"), true)
    | some resp =>
      if !resp.ok then
        (.error (.provider "Failed to generate summary: Summary generation failed"), true)
      else
        match resp.content with
        | none =>
            (.error (.provider "Failed to generate summary: No summary content received from API"), true)
        | some c =>
            if c = "" then
              (.error (.provider "Failed to generate summary: No summary content received from API"), true)
            else (.ok (parseSummaryResponse c speakers), true)

/-- The `AudioService.convertToWav`: decode (may fail), then the pure WAV
encoding of the decoded buffer. -/
def convertToWav (decodeOutcome : Option AudioBuffer) : Except AppError (List Nat) :=
  match decodeOutcome with
  | none => .error (.decode "Failed to decode audio data")
  | some buf => .ok (audioBufferToWav buf)

/-! ## XSpaceService (src/src/services/xSpaceService.ts) -/

/-- The `[a-zA-Z0-9]`. -/
def isAlnumAscii (c : Char) : Bool :=
  c.isAlpha || c.isDigit

/-- Leftmost match of a regex of the shape `lit(cls+)`: scan positions
left to right; where the literal matches and is followed by at least one
class character, capture the maximal class run. -/
def findCapture (lit : List Char) (cls : Char → Bool) : List Char → Option (List Char)
  | [] => none
  | c :: rest =>
      if lit.isPrefixOf (c :: rest) then
        match (c :: rest).drop lit.length with
        | a :: after =>
            if cls a then some (a :: after.takeWhile cls)
            else findCapture lit cls rest
        | [] => findCapture lit cls rest
      else findCapture lit cls rest

/-- The `XSpaceService.extractSpaceId`: a falsy url throws, then the four
url patterns are tried in order; a throw is modelled as `none`. -/
def extractSpaceId (url : String) : Option String :=
  if url = "" then none
  else
    let cs := url.toList
    ((findCapture "/spaces/".toList isAlnumAscii cs).orElse fun _ =>
     (findCapture "spaces.twitter.com/".toList isAlnumAscii cs).orElse fun _ =>
     (findCapture "/status/".toList Char.isDigit cs).orElse fun _ =>
      findCapture "/i/spaces/".toList isAlnumAscii cs).map String.mk

/-- The bearer-token guard
`token && token !== 'undefined' && token.length > 10`. -/
def tokenConfigured (token : Option String) : Bool :=
  match token with
  | none => false
  | some t => !(t = "") && !(t = "undefined") && decide (t.length > 10)

/-- The `XSpaceMetadata` of the source (`state` kept as a plain string as in
the runtime values). -/
structure XSpaceMetadata where
  id : String
  title : String
  hostUsername : String
  participantCount : Nat
  isLive : Bool
  scheduledStart : Option String
  actualStart : Option String
  estimatedEnd : Option String
  state : String
  deriving Repr, DecidableEq

/-- The `data.data` payload of the spaces lookup, field-wise optional;
`hostUsername` models `data.includes?.users?.[0]?.username`. -/
structure SpaceData where
  id : Option String
  title : Option String
  hostUsername : Option String
  participantCount : Option Nat
  scheduledStart : Option String
  startedAt : Option String
  endedAt : Option String
  state : Option String

/-- Outcome of the metadata HTTP request (`data` is `data.data`). -/
structure MetadataApiResponse where
  ok : Bool
  data : Option SpaceData

/-- Outcome of the `audio_stream` HTTP request. -/
structure AudioStreamResponse where
  ok : Bool
  audioUrl : Option String

/-- Environment of `XSpaceService`: outcomes of the metadata call, of
the HEAD probes of the candidate replay urls, and of the `audio_stream`
call.  `none` models a request that threw or returned `null`. -/
structure XSpaceEnv where
  metadataResponse : Option MetadataApiResponse
  headOk : String → Option Bool
  streamResponse : Option AudioStreamResponse

/-- The catch-all metadata returned when even space-id extraction
fails. -/
def fallbackMetadata : XSpaceMetadata :=
  { id := "unknown", title := "X Space Recording", hostUsername := "Unknown",
    participantCount := 0, isLive := false, scheduledStart := none,
    actualStart := none, estimatedEnd := none, state := "ended" }

/-- The basic metadata returned without (or instead of) a successful API
lookup. -/
def basicMetadata (spaceId : String) : XSpaceMetadata :=
  { id := spaceId, title := "X Space Recording", hostUsername := "Unknown",
    participantCount := 0, isLive := false, scheduledStart := none,
    actualStart := none, estimatedEnd := none, state := "ended" }

/-- The `XSpaceService.extractSpaceMetadata`: total — an invalid url (inner
throw, caught by the outer catch) yields `fallbackMetadata`; an
unconfigured token or any API failure yields `basicMetadata`; a
successful lookup maps the space fields with `||` defaults. -/
def extractSpaceMetadata (token : Option String) (env : XSpaceEnv)
    (spaceUrl : String) : XSpaceMetadata :=
  match extractSpaceId spaceUrl with
  | none => fallbackMetadata
  | some spaceId =>
      if tokenConfigured token then
        match env.metadataResponse with
        | some resp =>
            if resp.ok then
              match resp.data with
              | some space =>
                  { id := jsOrStr space.id spaceId
                    title := jsOrStr space.title "X Space Recording"
                    hostUsername := jsOrStr space.hostUsername "Unknown"
                    participantCount := space.participantCount.getD 0
                    isLive := space.state = some "live"
                    scheduledStart := space.scheduledStart
                    actualStart := space.startedAt
                    estimatedEnd := space.endedAt
                    state := jsOrStr space.state "ended" }
              | none => basicMetadata spaceId
            else basicMetadata spaceId
        | none => basicMetadata spaceId
      else basicMetadata spaceId

/-- The three candidate periscope replay urls probed by
`extractAudioUrl`. -/
def possibleUrls (spaceId : String) : List String :=
  [ "https://prod-fastly-us-west-1.video.pscp.tv/Transcoding/v1/hls/" ++ spaceId ++
      "/transcode/us-west-1/periscope-replay-direct-prod-us-west-1-public/audio-space/master_playlist.m3u8",
    "https://prod-fastly-us-east-1.video.pscp.tv/Transcoding/v1/hls/" ++ spaceId ++
      "/transcode/us-east-1/periscope-replay-direct-prod-us-east-1-public/audio-space/master_playlist.m3u8",
    "https://prod-fastly-eu-west-1.video.pscp.tv/Transcoding/v1/hls/" ++ spaceId ++
      "/transcode/eu-west-1/periscope-replay-direct-prod-eu-west-1-public/audio-space/master_playlist.m3u8" ]

/-- The `XSpaceService.extractAudioUrl`: first HEAD-probed replay url that
answers ok, else the `audio_stream` endpoint when the token is
configured; `none` models the final `No accessible audio streams found`
throw (or the propagated space-id throw). -/
def extractAudioUrl (token : Option String) (env : XSpaceEnv)
    (spaceUrl : String) : Option String :=
  match extractSpaceId spaceUrl with
  | none => none
  | some spaceId =>
      match (possibleUrls spaceId).find? (fun url => env.headOk url = some true) with
      | some url => some url
      | none =>
          if tokenConfigured token then
            match env.streamResponse with
            | some resp =>
                if resp.ok then
                  match resp.audioUrl with
                  | some u => if u = "" then none else some u
                  | none => none
                else none
            | none => none
          else none

/-- The pipeline stages that run after audio acquisition, in order. -/
inductive Stage where
  | convertToWav
  | transcribe
  | summarize
  deriving Repr, DecidableEq

/-- The `XSpaceProcessingResult` of the source. -/
structure XSpaceProcessingResult where
  metadata : XSpaceMetadata
  transcription : TranscriptionResult
  summary : SummaryResult
  audioUrl : Option String
  deriving Repr

/-- Environment of one `processXSpace` invocation: the `XSpaceService`
call outcomes, the audio fetch outcome per url, the audio decode
outcome, and the two provider-call environments. -/
structure PipelineEnv where
  xenv : XSpaceEnv
  fetchAudio : String → Option (List Nat)
  decodeOutcome : Option AudioBuffer
  transcribeEnv : TranscribeEnv
  summaryEnv : SummaryEnv

/-- The fixed message of the audio-acquisition failure in
`processXSpace`. -/
def unavailableMsg : String :=
  "Unable to access X Space audio. The space may be private, expired, or audio may not be available for download."

/-- The `XSpaceService.processXSpace`: metadata, audio acquisition (both the
url extraction and the download are inside one try/catch replacing any
error by the unavailable-source error), then convert → transcribe →
summarize, each failure aborting immediately.  The stage list records
which post-acquisition stages were invoked. -/
def processXSpace (apiKey twitterToken : Option String) (env : PipelineEnv)
    (spaceUrl : String) : Except AppError XSpaceProcessingResult × List Stage :=
  let metadata := extractSpaceMetadata twitterToken env.xenv spaceUrl
  match extractAudioUrl twitterToken env.xenv spaceUrl with
  | none => (.error (.unavailableSource unavailableMsg), [])
  | some audioUrl =>
      match env.fetchAudio audioUrl with
      | none => (.error (.unavailableSource unavailableMsg), [])
      | some _audioBlob =>
          match convertToWav env.decodeOutcome with
          | .error e => (.error e, [.convertToWav])
          | .ok _processedAudio =>
              match (transcribeAudio apiKey env.transcribeEnv).1 with
              | .error e => (.error e, [.convertToWav, .transcribe])
              | .ok transcription =>
                  match (generateSummary apiKey env.summaryEnv
                          transcription.text transcription.speakers).1 with
                  | .error e => (.error e, [.convertToWav, .transcribe, .summarize])
                  | .ok summary =>
                      (.ok { metadata := metadata, transcription := transcription,
                             summary := summary, audioUrl := some audioUrl },
                       [.convertToWav, .transcribe, .summarize])

/-! ## Specification-side definitions

Closed-form descriptions written from the specification's wording, to be
compared with the embedded code. -/

/-- Whether a string ends with `.` or `?` — the bonus condition exactly
as the claim states it. -/
def endsWithDotOrQm (s : String) : Bool :=
  match s.toList.getLast? with
  | some c => c = '.' || c = '?'
  | none => false

/-- The per-segment confidence formula exactly as the claim states it:
base 0.8, `+0.1` for a words-per-second proxy strictly between 2 and 8,
`+0.05` when the text *ends with* `.` or `?`, capped at 0.95. -/
def segmentScoreClaimed (seg : TranscriptionSegment) : ℚ :=
  let wps : ℚ := (seg.text.length : ℚ) / max (seg.stop - seg.start) 1
  min (0.8 + (if 2 < wps ∧ wps < 8 then 0.1 else 0)
        + (if endsWithDotOrQm seg.text then 0.05 else 0)) 0.95

/-- The transcript-level confidence exactly as the claim states it: the
arithmetic mean of the claimed per-segment scores. -/
def averageConfidenceClaimed (segments : List TranscriptionSegment) : ℚ :=
  if segments.length = 0 then 0
  else (segments.map segmentScoreClaimed).sum / segments.length

/-- The per-segment confidence formula of the amended claim: as
`segmentScoreClaimed` but with the bonus for text *containing* `.` or
`?`, as the code computes it. -/
def segmentScoreAmended (seg : TranscriptionSegment) : ℚ :=
  let wps : ℚ := (seg.text.length : ℚ) / max (seg.stop - seg.start) 1
  min (0.8 + (if 2 < wps ∧ wps < 8 then 0.1 else 0)
        + (if strIncludesChar seg.text '.' || strIncludesChar seg.text '?' then 0.05 else 0)) 0.95

/-- The distinct values of a list in order of first appearance. -/
def firstAppearances : List String → List String
  | [] => []
  | s :: rest => s :: (firstAppearances rest).filter (fun x => x != s)

/-- Insertion into a JS `Set` seen as an insertion-ordered list. -/
def insertDistinct (acc : List String) (s : String) : List String :=
  if s ∈ acc then acc else acc ++ [s]

/-- Little-endian bytes of a 16-bit unsigned value. -/
def u16le (v : Nat) : List Nat := [v % 256, v / 256 % 256]

/-- Little-endian bytes of a 32-bit unsigned value. -/
def u32le (v : Nat) : List Nat :=
  [v % 256, v / 256 % 256, v / 2 ^ 16 % 256, v / 2 ^ 24 % 256]

/-- The 44-byte WAV header layout stated by the specification, for
`d` data bytes, `c` channels and sample rate `r`: `"RIFF"`, riff size
`36 + d`, `"WAVE"`, `"fmt "`, format-chunk size 16, PCM marker 1,
channel count, sample rate, byte rate `r*c*2`, block align `c*2`, bits
per sample 16, `"data"`, data size `d`. -/
def wavHeader44 (d c r : Nat) : List Nat :=
  [82, 73, 70, 70] ++ u32le (36 + d) ++ [87, 65, 86, 69, 102, 109, 116, 32]
    ++ u32le 16 ++ u16le 1 ++ u16le c ++ u32le r ++ u32le (r * c * 2)
    ++ u16le (c * 2) ++ u16le 16 ++ [100, 97, 116, 97] ++ u32le d

/-! ## Supporting lemmas -/

theorem foldl_add_segmentScore (l : List TranscriptionSegment) (acc : ℚ) :
    l.foldl (fun a seg => a + segmentScore seg) acc = acc + (l.map segmentScore).sum := by
  induction l generalizing acc with
  | nil => simp
  | cons s rest ih => simp [ih, add_assoc]

theorem segmentScore_lb (seg : TranscriptionSegment) : (0.8 : ℚ) ≤ segmentScore seg := by
  unfold segmentScore
  refine le_min ?_ (by norm_num)
  split_ifs <;> norm_num

theorem segmentScore_ub (seg : TranscriptionSegment) : segmentScore seg ≤ 0.95 :=
  min_le_right _ _

theorem segmentScore_eq_amended (seg : TranscriptionSegment) :
    segmentScore seg = segmentScoreAmended seg := by
  unfold segmentScore segmentScoreAmended
  dsimp only
  split_ifs <;> norm_num

theorem foldl_insertDistinct_eq (l acc : List String) :
    l.foldl insertDistinct acc
      = acc ++ (firstAppearances l).filter (fun s => !acc.contains s) := by
  induction l generalizing acc with
  | nil => simp [firstAppearances]
  | cons s rest ih =>
    simp only [List.foldl_cons, firstAppearances, List.filter_cons]
    by_cases hs : s ∈ acc
    · have hstep : insertDistinct acc s = acc := if_pos hs
      have hc : (!acc.contains s) = false := by simp [hs]
      rw [hstep, hc, ih, List.filter_filter]
      simp only [Bool.false_eq_true, if_false]
      congr 1
      refine List.filter_congr fun x _ => ?_
      by_cases hx : x ∈ acc
      · simp [hx]
      · have hxs : x ≠ s := fun h => hx (h ▸ hs)
        simp [hx, hxs]
    · have hstep : insertDistinct acc s = acc ++ [s] := if_neg hs
      have hc : (!acc.contains s) = true := by simp [hs]
      rw [hstep, hc, ih, List.filter_filter, List.append_assoc]
      simp only [if_true, List.singleton_append]
      congr 2
      refine List.filter_congr fun x _ => ?_
      by_cases hx : x ∈ acc
      · by_cases hxs : x = s <;> simp [hx, hxs, List.mem_append]
      · by_cases hxs : x = s
        · subst hxs; simp [hs]
        · simp [hx, hxs, List.mem_append]

theorem identifySpeakers_foldl (segs : List TranscriptionSegment) (acc : List String) :
    segs.foldl addSpeaker acc
      = ((segs.filterMap (·.speaker)).filter (fun s => s != "")).foldl insertDistinct acc := by
  induction segs generalizing acc with
  | nil => simp
  | cons seg rest ih =>
    match h : seg.speaker with
    | none =>
      have ha : addSpeaker acc seg = acc := by simp [addSpeaker, h]
      simp only [List.foldl_cons, List.filterMap_cons, h, ha]
      exact ih acc
    | some s =>
      by_cases hs : s = ""
      · subst hs
        have ha : addSpeaker acc seg = acc := by simp [addSpeaker, h]
        simp only [List.foldl_cons, List.filterMap_cons, h, ha, List.filter_cons,
          bne_self_eq_false, Bool.false_eq_true, if_false]
        exact ih acc
      · have ha : addSpeaker acc seg = insertDistinct acc s := by
          simp [addSpeaker, insertDistinct, h, hs]
        have hb : (s != "") = true := by simp [hs]
        simp only [List.foldl_cons, List.filterMap_cons, h, ha, List.filter_cons, hb, if_true]
        exact ih (insertDistinct acc s)

/-- C6 counterexample input: a segment whose `speaker` field holds the
empty string. -/
def cexSpeakerSegment : TranscriptionSegment :=
  { start := 0, stop := 0, text := "", speaker := some "" }

/-- C6, counterexample: a segment with speaker `""` appears in the
segment sequence, but `identifySpeakers` skips falsy speakers, so the
speakers list is not the distinct speaker values in order of first
appearance. -/
theorem identifySpeakers_claim_cex :
    identifySpeakers [cexSpeakerSegment]
      ≠ firstAppearances ([cexSpeakerSegment].filterMap (·.speaker)) := by
  decide

/-- C6 (amended): for every transcription segment sequence, the
speakers list contains exactly the distinct non-empty speaker values
appearing in the segments (absent or empty `speaker` fields are
skipped), without duplicates, in order of first appearance. -/
theorem identifySpeakers_first_appearance (segs : List TranscriptionSegment) :
    identifySpeakers segs
      = firstAppearances ((segs.filterMap (·.speaker)).filter (fun s => s != "")) := by
  rw [identifySpeakers, identifySpeakers_foldl, foldl_insertDistinct_eq]
  simp

/-- C2, counterexample: for the segment `{start 0, end 0, text ".a"}`
the code's score is 0.85 (the text *contains* `'.'`), while the claimed
ends-with rule yields 0.8; the transcript-level confidences differ. -/
theorem confidence_endswith_claim_cex :
    calculateAverageConfidence [{ start := 0, stop := 0, text := ".a", speaker := none }]
      ≠ averageConfidenceClaimed [{ start := 0, stop := 0, text := ".a", speaker := none }] := by
  have hmax : ((0 : ℚ) - 0) ⊔ 1 = 1 := by
    rw [sub_self]
    exact sup_eq_right.mpr zero_le_one
  have hinc : (strIncludesChar ".a" '.' || strIncludesChar ".a" '?') = true := rfl
  have hend : endsWithDotOrQm ".a" = false := rfl
  have hcode : segmentScore { start := 0, stop := 0, text := ".a", speaker := none } = 17 / 20 := by
    unfold segmentScore
    dsimp only
    rw [show ((".a".length : ℚ)) = 2 from by norm_num [show ".a".length = 2 from rfl]]
    rw [hmax, div_one, hinc]
    rw [if_pos rfl, if_neg (show ¬((2 : ℚ) > 2 ∧ (2 : ℚ) < 8) from by norm_num)]
    norm_num [min_def]
  have hclaim : segmentScoreClaimed { start := 0, stop := 0, text := ".a", speaker := none }
      = 4 / 5 := by
    unfold segmentScoreClaimed
    dsimp only
    rw [show ((".a".length : ℚ)) = 2 from by norm_num [show ".a".length = 2 from rfl]]
    rw [hmax, div_one, hend]
    rw [if_neg (show ¬(false = true) from by simp),
      if_neg (show ¬((2 : ℚ) < 2 ∧ (2 : ℚ) < 8) from by norm_num)]
    norm_num [min_def]
  rw [calculateAverageConfidence, averageConfidenceClaimed]
  norm_num [hcode, hclaim]

/-- C2 (amended): the per-segment confidence score equals base 0.8,
plus 0.1 when text length over `max(end - start, 1)` is strictly
between 2 and 8, plus 0.05 when the segment text *contains* `'.'` or
`'?'`, capped at 0.95; the transcript confidence is the arithmetic mean
of these scores. -/
theorem calculateAverageConfidence_formula (segs : List TranscriptionSegment)
    (hne : segs ≠ []) :
    calculateAverageConfidence segs = (segs.map segmentScoreAmended).sum / segs.length := by
  have hlen : segs.length ≠ 0 := fun h => hne (List.length_eq_zero.mp h)
  rw [calculateAverageConfidence, if_neg hlen, foldl_add_segmentScore, zero_add]
  dsimp only
  congr 1
  exact congrArg List.sum (List.map_congr_left fun seg _ => segmentScore_eq_amended seg)

/-- C2 witness: the amended formula evaluated on a concrete two-segment
list. -/
theorem calculateAverageConfidence_formula_witness :
    calculateAverageConfidence
        [{ start := 0, stop := 2, text := "Hello.", speaker := none },
         { start := 2, stop := 4, text := "World", speaker := none }]
      = (([{ start := 0, stop := 2, text := "Hello.", speaker := none },
           { start := 2, stop := 4, text := "World", speaker := none }] :
            List TranscriptionSegment).map segmentScoreAmended).sum / 2 :=
  calculateAverageConfidence_formula _ (by simp)

/-- C7: the transcript-level confidence of an empty segment sequence is
exactly 0, and for every non-empty sequence it lies in [0, 0.95]. -/
theorem confidence_bounds :
    calculateAverageConfidence [] = 0
    ∧ ∀ segs : List TranscriptionSegment, segs ≠ [] →
        0 ≤ calculateAverageConfidence segs ∧ calculateAverageConfidence segs ≤ 0.95 := by
  constructor
  · simp [calculateAverageConfidence]
  · intro segs hne
    have hlen : segs.length ≠ 0 := fun h => hne (List.length_eq_zero.mp h)
    have hpos : (0 : ℚ) < segs.length := by
      exact_mod_cast Nat.pos_of_ne_zero hlen
    rw [calculateAverageConfidence, if_neg hlen, foldl_add_segmentScore, zero_add]
    constructor
    · refine div_nonneg ?_ (le_of_lt hpos)
      refine List.sum_nonneg fun x hx => ?_
      obtain ⟨seg, _, rfl⟩ := List.mem_map.mp hx
      exact le_trans (by norm_num) (segmentScore_lb seg)
    · rw [div_le_iff₀ hpos]
      have h1 : ((segs.map segmentScore).sum : ℚ)
          ≤ (segs.map segmentScore).length • (0.95 : ℚ) := by
        refine List.sum_le_card_nsmul _ _ fun x hx => ?_
        obtain ⟨seg, _, rfl⟩ := List.mem_map.mp hx
        exact segmentScore_ub seg
      rw [List.length_map] at h1
      calc (segs.map segmentScore).sum ≤ segs.length • (0.95 : ℚ) := h1
        _ = (segs.length : ℚ) * 0.95 := by rw [nsmul_eq_mul]
        _ = 0.95 * segs.length := mul_comm _ _

/-- C7 witness: the bounds at a concrete one-segment list. -/
theorem confidence_bounds_witness :
    0 ≤ calculateAverageConfidence [{ start := 0, stop := 0, text := "", speaker := none }]
    ∧ calculateAverageConfidence [{ start := 0, stop := 0, text := "", speaker := none }] ≤ 0.95 :=
  confidence_bounds.2 _ (by simp)

/-- C3: every processed segment at 0-based index `i` gets speaker label
`"Speaker " ++ toString (i / 5 + 1)`; in particular all segments of a
sequence of at most 5 segments are labeled `"Speaker 1"`. -/
theorem processSegments_speaker_labels (segments : List RawSegment) (i : Nat)
    (h : i < (processSegments segments).length) :
    ((processSegments segments).get ⟨i, h⟩).speaker
        = some ("Speaker " ++ toString (i / 5 + 1))
    ∧ (segments.length ≤ 5 →
        ((processSegments segments).get ⟨i, h⟩).speaker = some "Speaker 1") := by
  have hlen : (processSegments segments).length = segments.length := by
    simp [processSegments]
  have hi : i < segments.length := hlen ▸ h
  have key : ((processSegments segments).get ⟨i, h⟩).speaker
      = some ("Speaker " ++ toString (i / 5 + 1)) := by
    simp only [processSegments, List.get_eq_getElem, List.getElem_map, List.getElem_zip,
      List.getElem_range]
  refine ⟨key, fun h5 => ?_⟩
  rw [key]
  have : i / 5 = 0 := Nat.div_eq_of_lt (lt_of_lt_of_le hi h5)
  rw [this]
  rfl

/-- C3 witness: the label of the first of two raw segments. -/
theorem processSegments_speaker_labels_witness :
    ((processSegments [{ start := none, stop := none, text := none },
                       { start := none, stop := none, text := none }]).get
        ⟨0, by decide⟩).speaker = some ("Speaker " ++ toString (0 / 5 + 1))
    ∧ (([{ start := none, stop := none, text := none },
         { start := none, stop := none, text := none }] : List RawSegment).length ≤ 5 →
        ((processSegments [{ start := none, stop := none, text := none },
                           { start := none, stop := none, text := none }]).get
            ⟨0, by decide⟩).speaker = some "Speaker 1") :=
  processSegments_speaker_labels _ 0 (by decide)

/-- C5: for the provider response `"no json here at all"` (no JSON
object, no recognizable section headers), parsing yields the
placeholder summary, neutral sentiment, and the single-element
key-points placeholder. -/
theorem parseSummaryResponse_noJson_fallback (speakers : List String) :
    (parseSummaryResponse "no json here at all" speakers).summary
        = .str "Summary could not be generated."
    ∧ (parseSummaryResponse "no json here at all" speakers).sentiment = "neutral"
    ∧ (parseSummaryResponse "no json here at all" speakers).keyPoints
        = [.str "Key points could not be extracted."] :=
  ⟨rfl, rfl, rfl⟩

theorem validateSentiment_mem (v : Option JsonVal) : validateSentiment v ∈ validSentiments := by
  have hneutral : ("neutral" : String) ∈ validSentiments := by decide
  match v with
  | none => exact hneutral
  | some .null => exact hneutral
  | some (.bool b) => exact hneutral
  | some (.num q) => exact hneutral
  | some (.arr xs) => exact hneutral
  | some (.obj fs) => exact hneutral
  | some (.str s) =>
    by_cases h : s ∈ validSentiments
    · simp [validateSentiment, h]
    · simp only [validateSentiment, h]
      simp [h]
      exact hneutral

theorem findSentimentWord_mem (cs : List Char) (w : String)
    (h : findSentimentWord cs = some w) : w ∈ validSentiments := by
  induction cs with
  | nil => simp [findSentimentWord] at h
  | cons c rest ih =>
    rw [findSentimentWord] at h
    match hf : validSentiments.find? (fun x => x.toList.isPrefixOf (c :: rest)) with
    | some u =>
      rw [hf] at h
      cases h
      exact List.mem_of_find?_eq_some hf
    | none =>
      rw [hf] at h
      exact ih h

set_option maxHeartbeats 1000000 in
theorem processLine_sentiment_mem (st : TextParseState) (line : String)
    (hst : st.sentiment ∈ validSentiments) :
    (processLine st line).sentiment ∈ validSentiments := by
  unfold processLine
  dsimp only
  split_ifs <;> try exact hst
  cases hf : findSentimentWord (jsToLower (jsTrim line)).toList with
  | some w =>
    simp only [hf]
    exact findSentimentWord_mem _ _ hf
  | none =>
    simp only [hf]
    exact hst

theorem foldl_processLine_sentiment_mem (lines : List String) (st : TextParseState)
    (hst : st.sentiment ∈ validSentiments) :
    (lines.foldl processLine st).sentiment ∈ validSentiments := by
  induction lines generalizing st with
  | nil => exact hst
  | cons line rest ih =>
    rw [List.foldl_cons]
    exact ih _ (processLine_sentiment_mem st line hst)

theorem parseTextResponse_sentiment_mem (content : String) (speakers : List String) :
    (parseTextResponse content speakers).sentiment ∈ validSentiments := by
  unfold parseTextResponse
  dsimp only
  exact foldl_processLine_sentiment_mem _ _ (by decide)

theorem parseSummaryResponse_sentiment_mem (content : String) (speakers : List String) :
    (parseSummaryResponse content speakers).sentiment ∈ validSentiments := by
  cases hb : braceMatch content with
  | none =>
    simp only [parseSummaryResponse, hb]
    exact parseTextResponse_sentiment_mem content speakers
  | some sub =>
    cases hj : jsonParse sub with
    | none =>
      simp only [parseSummaryResponse, hb, hj]
      exact parseTextResponse_sentiment_mem content speakers
    | some parsed =>
      simp only [parseSummaryResponse, hb, hj]
      exact validateSentiment_mem _

/-- C1: summary-response parsing is total (it is a Lean function into
`SummaryResult`, so it returns on every input and cannot raise); the
resulting `sentiment` always lies in the fixed enum; on the JSON path an
absent or unrecognized sentiment maps to `"neutral"`, an absent or
non-array `keyPoints`/`topics`/`actionItems` field maps to `[]`, and an
absent `participants` field maps to the caller-supplied speaker list. -/
theorem summary_parsing_total (content : String) (speakers : List String) (parsed : JsonVal)
    (_hne : content ≠ "") :
    (parseSummaryResponse content speakers).sentiment ∈ validSentiments
    ∧ (jsGetField parsed "sentiment" = none →
        (summaryFromJson parsed speakers).sentiment = "neutral")
    ∧ (∀ s, jsGetField parsed "sentiment" = some (.str s) → s ∉ validSentiments →
        (summaryFromJson parsed speakers).sentiment = "neutral")
    ∧ ((∀ xs, jsGetField parsed "keyPoints" ≠ some (.arr xs)) →
        (summaryFromJson parsed speakers).keyPoints = [])
    ∧ ((∀ xs, jsGetField parsed "topics" ≠ some (.arr xs)) →
        (summaryFromJson parsed speakers).topics = [])
    ∧ ((∀ xs, jsGetField parsed "actionItems" ≠ some (.arr xs)) →
        (summaryFromJson parsed speakers).actionItems = [])
    ∧ (jsGetField parsed "participants" = none →
        (summaryFromJson parsed speakers).participants = speakers.map .str) := by
  refine ⟨parseSummaryResponse_sentiment_mem content speakers, ?_, ?_, ?_, ?_, ?_, ?_⟩
  · intro h
    simp [summaryFromJson, validateSentiment, h]
  · intro s h hs
    simp [summaryFromJson, validateSentiment, h, hs]
  · intro h
    unfold summaryFromJson
    dsimp only
    match hk : jsGetField parsed "keyPoints" with
    | none => rfl
    | some .null | some (.bool _) | some (.num _) | some (.str _) | some (.obj _) => rfl
    | some (.arr xs) => exact absurd hk (h xs)
  · intro h
    unfold summaryFromJson
    dsimp only
    match hk : jsGetField parsed "topics" with
    | none => rfl
    | some .null | some (.bool _) | some (.num _) | some (.str _) | some (.obj _) => rfl
    | some (.arr xs) => exact absurd hk (h xs)
  · intro h
    unfold summaryFromJson
    dsimp only
    match hk : jsGetField parsed "actionItems" with
    | none => rfl
    | some .null | some (.bool _) | some (.num _) | some (.str _) | some (.obj _) => rfl
    | some (.arr xs) => exact absurd hk (h xs)
  · intro h
    simp [summaryFromJson, h]

/-- C1 witness: the parsing guarantees at the concrete response `"x"`,
speaker list `["s"]` and the empty JSON object. -/
theorem summary_parsing_total_witness :
    ("x" : String) ≠ ""
    ∧ ((parseSummaryResponse "x" ["s"]).sentiment ∈ validSentiments
        ∧ (jsGetField (.obj []) "sentiment" = none →
            (summaryFromJson (.obj []) ["s"]).sentiment = "neutral")
        ∧ (∀ s, jsGetField (.obj []) "sentiment" = some (.str s) → s ∉ validSentiments →
            (summaryFromJson (.obj []) ["s"]).sentiment = "neutral")
        ∧ ((∀ xs, jsGetField (.obj []) "keyPoints" ≠ some (.arr xs)) →
            (summaryFromJson (.obj []) ["s"]).keyPoints = [])
        ∧ ((∀ xs, jsGetField (.obj []) "topics" ≠ some (.arr xs)) →
            (summaryFromJson (.obj []) ["s"]).topics = [])
        ∧ ((∀ xs, jsGetField (.obj []) "actionItems" ≠ some (.arr xs)) →
            (summaryFromJson (.obj []) ["s"]).actionItems = [])
        ∧ (jsGetField (.obj []) "participants" = none →
            (summaryFromJson (.obj []) ["s"]).participants = ["s"].map .str)) :=
  ⟨by decide, summary_parsing_total "x" ["s"] (.obj []) (by decide)⟩

theorem writeString_RIFF (ab : List Nat) :
    writeString ab 0 "RIFF" = (((ab.set 0 82).set 1 73).set 2 70).set 3 70 := rfl

theorem writeString_WAVE (ab : List Nat) :
    writeString ab 8 "WAVE" = (((ab.set 8 87).set 9 65).set 10 86).set 11 69 := rfl

theorem writeString_fmt (ab : List Nat) :
    writeString ab 12 "fmt " = (((ab.set 12 102).set 13 109).set 14 116).set 15 32 := rfl

theorem writeString_data (ab : List Nat) :
    writeString ab 36 "data" = (((ab.set 36 100).set 37 97).set 38 116).set 39 97 := rfl

theorem wavHeader44_length (d c r : Nat) : (wavHeader44 d c r).length = 44 := by
  simp [wavHeader44, u16le, u32le]

theorem writeSamples_length (buffer : AudioBuffer) :
    ∀ (ps : List (Nat × Nat)) (off : Nat) (ab : List Nat),
      (writeSamples buffer ps off ab).length = ab.length := by
  intro ps
  induction ps with
  | nil => intro off ab; rfl
  | cons q rest ih =>
    obtain ⟨i, ch⟩ := q
    intro off ab
    rw [writeSamples, ih]
    simp [setInt16]

theorem writeSamples_getElem?_lt (buffer : AudioBuffer) :
    ∀ (ps : List (Nat × Nat)) (off : Nat) (ab : List Nat) (k : Nat), k < off →
      (writeSamples buffer ps off ab)[k]? = ab[k]? := by
  intro ps
  induction ps with
  | nil => intro off ab k hk; rfl
  | cons q rest ih =>
    obtain ⟨i, ch⟩ := q
    intro off ab k hk
    rw [writeSamples, ih (off + 2) _ k (by omega)]
    simp only [setInt16]
    rw [List.getElem?_set_ne (show off + 1 ≠ k by omega),
      List.getElem?_set_ne (show off ≠ k by omega)]

set_option maxHeartbeats 2000000 in
theorem headerBuffer_eq (d c r : Nat) :
    setUint32 (writeString (setUint16 (setUint16 (setUint32 (setUint32 (setUint16 (setUint16
      (setUint32 (writeString (writeString (setUint32 (writeString (newArrayBuffer (44 + d))
        0 "RIFF") 4 (36 + d)) 8 "WAVE") 12 "fmt ") 16 16) 20 1) 22 c) 24 r)
        28 (r * c * 2)) 32 (c * 2)) 34 16) 36 "data") 40 d
    = wavHeader44 d c r ++ List.replicate d 0 := by
  rw [writeString_RIFF, writeString_WAVE, writeString_fmt, writeString_data]
  simp only [newArrayBuffer, setUint16, setUint32]
  rw [List.replicate_add]
  simp only [List.set_append, List.length_set, List.length_replicate]
  simp [wavHeader44, u16le, u32le]

theorem audioBufferToWav_decomp (buf : AudioBuffer) :
    audioBufferToWav buf
      = writeSamples buf (sampleIndexPairs buf.length buf.numberOfChannels) 44
          (wavHeader44 (buf.length * buf.numberOfChannels * 2) buf.numberOfChannels
              buf.sampleRate
            ++ List.replicate (buf.length * buf.numberOfChannels * 2) 0) := by
  simp only [audioBufferToWav]
  rw [headerBuffer_eq]

theorem sampleIndexPairs_succ (n c : Nat) :
    sampleIndexPairs (n + 1) c
      = sampleIndexPairs n c ++ (List.range c).map (fun ch => (n, ch)) := by
  unfold sampleIndexPairs
  rw [List.range_succ, List.flatMap_append]
  simp

theorem sampleIndexPairs_length (n c : Nat) : (sampleIndexPairs n c).length = n * c := by
  induction n with
  | zero => simp [sampleIndexPairs]
  | succ m ih =>
    rw [sampleIndexPairs_succ, List.length_append, ih, List.length_map, List.length_range,
      Nat.succ_mul]

theorem sampleIndexPairs_getElem? (n c i ch : Nat) (hi : i < n) (hch : ch < c) :
    (sampleIndexPairs n c)[i * c + ch]? = some (i, ch) := by
  induction n with
  | zero => omega
  | succ m ih =>
    rw [sampleIndexPairs_succ, List.getElem?_append, sampleIndexPairs_length]
    by_cases him : i < m
    · have hb : i * c + ch < m * c := by
        have h1 : i * c + ch < i * c + c := Nat.add_lt_add_left hch _
        have h2 : i * c + c = (i + 1) * c := (Nat.succ_mul i c).symm
        have h3 : (i + 1) * c ≤ m * c := Nat.mul_le_mul_right c him
        omega
      rw [if_pos hb]
      exact ih him
    · have him' : i = m := by omega
      subst him'
      rw [if_neg (Nat.not_lt.mpr (Nat.le_add_right _ _)), Nat.add_sub_cancel_left,
        List.getElem?_map, List.getElem?_range hch]
      rfl

theorem writeSamples_getElem?_bytes (buffer : AudioBuffer) :
    ∀ (ps : List (Nat × Nat)) (off : Nat) (ab : List Nat) (p : Nat) (pr : Nat × Nat),
      ps[p]? = some pr →
      off + 2 * ps.length ≤ ab.length →
      (writeSamples buffer ps off ab)[off + 2 * p]?
          = some (((sampleToInt (clampedSample buffer pr.2 pr.1)) % 65536).toNat % 256)
      ∧ (writeSamples buffer ps off ab)[off + 2 * p + 1]?
          = some (((sampleToInt (clampedSample buffer pr.2 pr.1)) % 65536).toNat / 256 % 256) := by
  intro ps
  induction ps with
  | nil => intro off ab p pr hp hle; simp at hp
  | cons q rest ih =>
    intro off ab p pr hp hle
    obtain ⟨i, ch⟩ := q
    rw [List.length_cons] at hle
    match p with
    | 0 =>
      rw [List.getElem?_cons_zero] at hp
      have hpr : pr = (i, ch) := by injection hp with h; exact h.symm
      subst hpr
      rw [writeSamples]
      simp only [Nat.mul_zero, Nat.add_zero]
      have hoff : off < ab.length := by omega
      have hoff1 : off + 1 < ab.length := by omega
      constructor
      · rw [writeSamples_getElem?_lt buffer rest (off + 2) _ off (by omega)]
        simp only [setInt16]
        rw [List.getElem?_set_ne (show off + 1 ≠ off by omega),
          List.getElem?_set_self hoff]
      · rw [writeSamples_getElem?_lt buffer rest (off + 2) _ (off + 1) (by omega)]
        simp only [setInt16]
        rw [List.getElem?_set_self (by simpa using hoff1)]
    | p' + 1 =>
      rw [List.getElem?_cons_succ] at hp
      rw [writeSamples]
      have harith : off + 2 * (p' + 1) = off + 2 + 2 * p' := by ring
      rw [harith]
      exact ih (off + 2) _ p' pr hp (by simp only [setInt16, List.length_set]; omega)

theorem sampleToInt_eq_spec (q : ℚ) :
    sampleToInt q = if q < 0 then ⌈q * 32768⌉ else ⌊q * 32767⌋ := by
  unfold sampleToInt jsTruncInt
  by_cases h : q < 0
  · rw [if_pos h, if_pos (mul_neg_of_neg_of_pos h (by norm_num)), if_pos h]
  · rw [if_neg h, if_neg (not_lt.mpr (mul_nonneg (not_lt.mp h) (by norm_num))), if_neg h]

/-- C4: encoding a decoded PCM buffer of `n` samples, `c` channels and
sample rate `r` yields exactly `44 + n*c*2` bytes; the first 44 bytes
follow the specified little-endian WAV header layout (RIFF size
`36 + dataBytes`, PCM marker 1, channel count, sample rate, byte rate
`r*c*2`, block align `c*2`, bits per sample 16, data size); and each
sample is clamped to [-1, 1], scaled by 32768 when negative and 32767
when non-negative, and stored little-endian at offset
`44 + 2*(i*c + ch)`. -/
theorem audioBufferToWav_layout (buf : AudioBuffer) :
    (audioBufferToWav buf).length = 44 + buf.length * buf.numberOfChannels * 2
    ∧ (audioBufferToWav buf).take 44
        = wavHeader44 (buf.length * buf.numberOfChannels * 2) buf.numberOfChannels
            buf.sampleRate
    ∧ (∀ i ch, i < buf.length → ch < buf.numberOfChannels →
        (audioBufferToWav buf)[44 + 2 * (i * buf.numberOfChannels + ch)]?
            = some ((((if max (-1) (min 1 (buf.channelData ch i)) < 0
                then ⌈max (-1) (min 1 (buf.channelData ch i)) * 32768⌉
                else ⌊max (-1) (min 1 (buf.channelData ch i)) * 32767⌋) % 65536).toNat) % 256)
        ∧ (audioBufferToWav buf)[44 + 2 * (i * buf.numberOfChannels + ch) + 1]?
            = some ((((if max (-1) (min 1 (buf.channelData ch i)) < 0
                then ⌈max (-1) (min 1 (buf.channelData ch i)) * 32768⌉
                else ⌊max (-1) (min 1 (buf.channelData ch i)) * 32767⌋) % 65536).toNat)
                / 256 % 256)) := by
  have hlen : (audioBufferToWav buf).length
      = 44 + buf.length * buf.numberOfChannels * 2 := by
    rw [audioBufferToWav_decomp, writeSamples_length]
    simp [wavHeader44_length]
  refine ⟨hlen, ?_, ?_⟩
  · rw [audioBufferToWav_decomp]
    apply List.ext_getElem?
    intro k
    rw [List.getElem?_take]
    by_cases hk : k < 44
    · rw [if_pos hk, writeSamples_getElem?_lt buf _ _ _ k hk, List.getElem?_append,
        if_pos (by rw [wavHeader44_length]; exact hk)]
    · rw [if_neg hk]
      symm
      exact List.getElem?_eq_none (by rw [wavHeader44_length]; omega)
  · intro i ch hi hch
    have hp := sampleIndexPairs_getElem? buf.length buf.numberOfChannels i ch hi hch
    have hbound : 44 + 2 * (sampleIndexPairs buf.length buf.numberOfChannels).length
        ≤ (wavHeader44 (buf.length * buf.numberOfChannels * 2) buf.numberOfChannels
              buf.sampleRate
            ++ List.replicate (buf.length * buf.numberOfChannels * 2) 0).length := by
      rw [sampleIndexPairs_length, List.length_append, wavHeader44_length,
        List.length_replicate, Nat.mul_comm 2 (buf.length * buf.numberOfChannels)]
    have hb := writeSamples_getElem?_bytes buf
      (sampleIndexPairs buf.length buf.numberOfChannels) 44 _ (i * buf.numberOfChannels + ch)
      (i, ch) hp hbound
    rw [audioBufferToWav_decomp]
    simpa [clampedSample, sampleToInt_eq_spec] using hb

/-- The concrete decoded buffer of the C4 scenario: mono, 16000 Hz,
45000 samples (90,000 data bytes), all-zero samples. -/
def monoBuffer : AudioBuffer :=
  { length := 45000, numberOfChannels := 1, sampleRate := 16000, channelData := fun _ _ => 0 }

/-- C4 witness: the layout theorem at the scenario buffer — container of
exactly `44 + 90000` bytes, header byte 22 (channel count) equal to 1,
and the first (zero) sample encoded as byte 0 at offset 44. -/
theorem audioBufferToWav_layout_witness :
    (audioBufferToWav monoBuffer).length = 44 + 90000
    ∧ (audioBufferToWav monoBuffer)[22]? = some 1
    ∧ (audioBufferToWav monoBuffer)[44]? = some 0 := by
  have h := audioBufferToWav_layout monoBuffer
  refine ⟨?_, ?_, ?_⟩
  · rw [h.1]
    rfl
  · have ht : (audioBufferToWav monoBuffer)[22]?
        = ((audioBufferToWav monoBuffer).take 44)[22]? := by
      rw [List.getElem?_take, if_pos (by norm_num)]
    rw [ht, h.2.1]
    rfl
  · have hs := (h.2.2 0 0 (by norm_num [monoBuffer]) (by norm_num [monoBuffer])).1
    norm_num [monoBuffer] at hs
    simpa [monoBuffer] using hs

/-! ## Orchestrator and provider-credential claims -/

/-- C9: with no provider API credential both `transcribeAudio` and
`generateSummary` fail with the configuration error before any provider
request is attempted (the boolean component is `false`); a
provider-error failure arises only when the upstream request itself
failed (threw, or non-ok response) or — for the summary — returned no
content at all. -/
theorem provider_credential_errors (key : Option String) (tEnv : TranscribeEnv)
    (sEnv : SummaryEnv) (transcript : String) (speakers : List String) :
    (jsTruthyStr key = false →
      (∃ m, transcribeAudio key tEnv = (.error (.config m), false))
      ∧ (∃ m, generateSummary key sEnv transcript speakers = (.error (.config m), false)))
    ∧ (∀ m, (transcribeAudio key tEnv).1 = .error (.provider m) →
        tEnv.response = none ∨ ∃ resp, tEnv.response = some resp ∧ resp.ok = false)
    ∧ (∀ m, (generateSummary key sEnv transcript speakers).1 = .error (.provider m) →
        sEnv.response = none
        ∨ ∃ resp, sEnv.response = some resp
            ∧ (resp.ok = false ∨ resp.content = none ∨ resp.content = some "")) := by
  refine ⟨fun hk =>
    ⟨⟨"OpenAI API key not configured. Please add VITE_OPENAI_API_KEY to your .env file.",
        by simp [transcribeAudio, hk]⟩,
      ⟨"OpenAI API key not configured. Please add VITE_OPENAI_API_KEY to your .env file.",
        by simp [generateSummary, hk]⟩⟩,
    fun m hm => ?_, fun m hm => ?_⟩
  · by_cases hk : jsTruthyStr key
    · cases hr : tEnv.response with
      | none => exact Or.inl rfl
      | some resp =>
        refine Or.inr ⟨resp, rfl, ?_⟩
        by_cases ho : resp.ok
        · rw [transcribeAudio] at hm
          simp [hk, hr, ho] at hm
        · simpa using ho
    · rw [transcribeAudio] at hm
      simp [hk] at hm
  · by_cases hk : jsTruthyStr key
    · cases hr : sEnv.response with
      | none => exact Or.inl rfl
      | some resp =>
        refine Or.inr ⟨resp, rfl, ?_⟩
        by_cases ho : resp.ok
        · cases hc : resp.content with
          | none => exact Or.inr (Or.inl rfl)
          | some c =>
            by_cases hce : c = ""
            · subst hce
              exact Or.inr (Or.inr rfl)
            · rw [generateSummary] at hm
              simp [hk, hr, ho, hc, hce] at hm
        · exact Or.inl (by simpa using ho)
    · rw [generateSummary] at hm
      simp [hk] at hm

/-- C9 witness: the configuration failure with no credential at all, at
concrete environments. -/
theorem provider_credential_errors_witness :
    (∃ m, transcribeAudio none ⟨none⟩ = (.error (.config m), false))
    ∧ (∃ m, generateSummary none ⟨none⟩ "t" [] = (.error (.config m), false)) :=
  (provider_credential_errors none ⟨none⟩ ⟨none⟩ "t" []).1 (by decide)

/-- C8: if no retrievable audio stream can be obtained (no audio url,
or the download fails), `processXSpace` fails with the
unavailable-source error and invokes no later stage (empty stage list);
whenever a later stage fails, the whole invocation fails with that
stage's error; and a successful result implies every stage succeeded —
no partial result is ever returned. -/
theorem pipeline_failure_propagation (apiKey twitterToken : Option String)
    (env : PipelineEnv) (spaceUrl : String) :
    ((extractAudioUrl twitterToken env.xenv spaceUrl).bind env.fetchAudio = none →
      (processXSpace apiKey twitterToken env spaceUrl).1
          = .error (.unavailableSource unavailableMsg)
      ∧ (processXSpace apiKey twitterToken env spaceUrl).2 = [])
    ∧ (∀ url blob, extractAudioUrl twitterToken env.xenv spaceUrl = some url →
        env.fetchAudio url = some blob →
        (∀ e, convertToWav env.decodeOutcome = .error e →
          (processXSpace apiKey twitterToken env spaceUrl).1 = .error e
          ∧ (processXSpace apiKey twitterToken env spaceUrl).2 = [.convertToWav])
        ∧ (∀ wav, convertToWav env.decodeOutcome = .ok wav →
            (∀ e, (transcribeAudio apiKey env.transcribeEnv).1 = .error e →
              (processXSpace apiKey twitterToken env spaceUrl).1 = .error e
              ∧ (processXSpace apiKey twitterToken env spaceUrl).2
                  = [.convertToWav, .transcribe])
            ∧ (∀ t, (transcribeAudio apiKey env.transcribeEnv).1 = .ok t →
                ∀ e, (generateSummary apiKey env.summaryEnv t.text t.speakers).1 = .error e →
                  (processXSpace apiKey twitterToken env spaceUrl).1 = .error e
                  ∧ (processXSpace apiKey twitterToken env spaceUrl).2
                      = [.convertToWav, .transcribe, .summarize])))
    ∧ (∀ r, (processXSpace apiKey twitterToken env spaceUrl).1 = .ok r →
        ∃ url wav t,
          extractAudioUrl twitterToken env.xenv spaceUrl = some url
          ∧ env.fetchAudio url ≠ none
          ∧ convertToWav env.decodeOutcome = .ok wav
          ∧ (transcribeAudio apiKey env.transcribeEnv).1 = .ok t
          ∧ (generateSummary apiKey env.summaryEnv t.text t.speakers).1 = .ok r.summary
          ∧ r.transcription = t) := by
  refine ⟨fun hacq => ?_, fun url blob hurl hfetch => ?_, fun r hr => ?_⟩
  · cases hu : extractAudioUrl twitterToken env.xenv spaceUrl with
    | none => constructor <;> simp [processXSpace, hu]
    | some u =>
      have hf : env.fetchAudio u = none := by
        rw [hu] at hacq
        simpa using hacq
      constructor <;> simp [processXSpace, hu, hf]
  · refine ⟨fun e he => ?_, fun wav hwav => ⟨fun e he => ?_, fun t ht e he => ?_⟩⟩
    · constructor <;> simp [processXSpace, hurl, hfetch, he]
    · constructor <;> simp [processXSpace, hurl, hfetch, hwav, he]
    · constructor <;> simp [processXSpace, hurl, hfetch, hwav, ht, he]
  · cases hu : extractAudioUrl twitterToken env.xenv spaceUrl with
    | none => simp [processXSpace, hu] at hr
    | some u =>
      cases hf : env.fetchAudio u with
      | none => simp [processXSpace, hu, hf] at hr
      | some blob =>
        cases hw : convertToWav env.decodeOutcome with
        | error e => simp [processXSpace, hu, hf, hw] at hr
        | ok wav =>
          cases ht : (transcribeAudio apiKey env.transcribeEnv).1 with
          | error e => simp [processXSpace, hu, hf, hw, ht] at hr
          | ok t =>
            cases hs : (generateSummary apiKey env.summaryEnv t.text t.speakers).1 with
            | error e => simp [processXSpace, hu, hf, hw, ht, hs] at hr
            | ok s =>
              simp only [processXSpace, hu, hf, hw, ht, hs] at hr
              rw [Except.ok.injEq] at hr
              subst hr
              exact ⟨u, wav, t, rfl, by simp [hf], rfl, rfl, by simpa using hs, rfl⟩

/-- The all-failing environment used by the orchestration witnesses. -/
def cexPipelineEnv : PipelineEnv :=
  { xenv := { metadataResponse := none, headOk := fun _ => none, streamResponse := none },
    fetchAudio := fun _ => none, decodeOutcome := none,
    transcribeEnv := ⟨none⟩, summaryEnv := ⟨none⟩ }

/-- C8 witness: with no resolvable audio source, the pipeline fails with
the unavailable-source error and runs no stage. -/
theorem pipeline_failure_propagation_witness :
    (processXSpace none none cexPipelineEnv "u").1
        = .error (.unavailableSource unavailableMsg)
    ∧ (processXSpace none none cexPipelineEnv "u").2 = [] :=
  (pipeline_failure_propagation none none cexPipelineEnv "u").1 (by decide)

/-- C10: `extractSpaceMetadata` is total — it always returns a metadata
record; when the space id cannot be extracted it returns the fallback
record with id `"unknown"`; when the id extracts but the token is
unconfigured or the remote lookup fails (throws, non-ok, or no payload)
it returns the basic record with the extracted id, title
`"X Space Recording"`, host `"Unknown"`, participant count 0 and state
`"ended"`. -/
theorem extractSpaceMetadata_total (token : Option String) (env : XSpaceEnv) (url : String) :
    (extractSpaceId url = none →
      extractSpaceMetadata token env url
        = { id := "unknown", title := "X Space Recording", hostUsername := "Unknown",
            participantCount := 0, isLive := false, scheduledStart := none,
            actualStart := none, estimatedEnd := none, state := "ended" })
    ∧ (∀ sid, extractSpaceId url = some sid →
        (tokenConfigured token = false
          ∨ env.metadataResponse = none
          ∨ (∃ resp, env.metadataResponse = some resp ∧ (resp.ok = false ∨ resp.data = none))) →
        extractSpaceMetadata token env url
          = { id := sid, title := "X Space Recording", hostUsername := "Unknown",
              participantCount := 0, isLive := false, scheduledStart := none,
              actualStart := none, estimatedEnd := none, state := "ended" }) := by
  constructor
  · intro h
    simp [extractSpaceMetadata, h, fallbackMetadata]
  · intro sid hsid hfail
    rcases hfail with ht | hm | ⟨resp, hrsp, hbad⟩
    · simp [extractSpaceMetadata, hsid, ht, basicMetadata]
    · by_cases ht : tokenConfigured token
      · simp [extractSpaceMetadata, hsid, ht, hm, basicMetadata]
      · simp [extractSpaceMetadata, hsid, ht, basicMetadata]
    · by_cases ht : tokenConfigured token
      · rcases hbad with ho | hd
        · simp [extractSpaceMetadata, hsid, ht, hrsp, ho, basicMetadata]
        · by_cases ho : resp.ok
          · simp [extractSpaceMetadata, hsid, ht, hrsp, ho, hd, basicMetadata]
          · simp [extractSpaceMetadata, hsid, ht, hrsp, ho, basicMetadata]
      · simp [extractSpaceMetadata, hsid, ht, basicMetadata]

/-- C10 witness: a url with no extractable space id yields the fallback
record. -/
theorem extractSpaceMetadata_total_witness :
    extractSpaceMetadata none
        { metadataResponse := none, headOk := fun _ => none, streamResponse := none } "x"
      = { id := "unknown", title := "X Space Recording", hostUsername := "Unknown",
          participantCount := 0, isLive := false, scheduledStart := none,
          actualStart := none, estimatedEnd := none, state := "ended" } :=
  (extractSpaceMetadata_total none
    { metadataResponse := none, headOk := fun _ => none, streamResponse := none } "x").1
    (by decide)

end XSpaceApp
